import Mathlib

/-!
Shallow embedding of the measurement pipeline of `pg_tps_optimizer`
(src/threader/samples.rs, src/threader/worker.rs, src/fibonacci/mod.rs,
src/generic/mod.rs, src/cli/mod.rs).

Modelling conventions:
* `chrono::Duration` is an integer count of nanoseconds (`Int`); additions
  are exact, `Duration / i32` and `num_microseconds` are truncating integer
  division (`Int.tdiv`), matching the truncating division that chrono
  performs on non-negative durations.
* `f64` values are modelled as real numbers (`ℝ`); `f64::sqrt` is
  `Real.sqrt`, the `as i64` cast truncates towards zero.  The comparison
  `duration == 0.0` of an `i64 as f64` cast is modelled as the (equivalent)
  comparison of the integer with 0, since the cast maps exactly 0 to 0.0.
* `u32`/`u64` counters are `Nat`; overflow is material only for the
  unbounded Fibonacci iterator, where `u32` wrap-around (`% 2^32`,
  release-mode semantics) is modelled explicitly.
* `BTreeMap<u32, ParallelSample>` is modelled as an association list with
  unique keys; the claims about it do not depend on the key ordering.
-/

namespace PgTps

/-- Source `chrono::Duration`, as a signed number of nanoseconds. -/
abbrev Duration := Int

/-- Source `chrono::Duration::num_microseconds` (truncating; the `Option` wrapper
of chrono can only be `None` on `i64` overflow, which the integers of the
model do not have, so the `unwrap_or(0)` of the source is dropped). -/
def Duration.num_microseconds (d : Duration) : Int :=
  Int.tdiv d 1000

/-- Source `chrono::Duration::microseconds`: microseconds to nanoseconds. -/
def Duration.microseconds (us : Int) : Duration :=
  1000 * us

/-- Source `percent_of` from src/threader/samples.rs: `0` when `first` is zero,
otherwise `100 * second / first`. -/
noncomputable def percent_of (first second : ℝ) : ℝ :=
  if first = 0 then 0 else 100 * second / first

/-- The truncating (towards zero) `f64 as i64` cast of Rust, restricted to
the finite reals (saturation at the `i64` range is immaterial here). -/
noncomputable def f64_as_i64 (x : ℝ) : Int :=
  if 0 ≤ x then ⌊x⌋ else -⌊-x⌋

/-- Source `struct ParallelSample` from src/threader/samples.rs. -/
structure ParallelSample where
  timeslice : Nat
  total_transactions : Nat
  total_waits : Duration
  total_duration : Duration
  num_samples : Nat
deriving DecidableEq, Repr

namespace ParallelSample

/-- Source `ParallelSample::avg_latency`: `total_waits / total_transactions`
(Duration divided by i32, truncating), zero when there are no
transactions. -/
def avg_latency (p : ParallelSample) : Duration :=
  if p.total_transactions = 0 then 0
  else Int.tdiv p.total_waits p.total_transactions

/-- Source `ParallelSample::add`.  The source mutates `self` and returns
`Result<(), &str>`; the model returns the post-state of `self` together
with the error, the post-state being the unchanged `self` on the error
path (the source returns before touching any field). -/
def add (self samples : ParallelSample) : ParallelSample × Option String :=
  if self.timeslice ≠ samples.timeslice then
    (self, some "trying to combine samples of different timeslices")
  else
    ({ timeslice := self.timeslice
       total_transactions := self.total_transactions + samples.total_transactions
       total_waits := self.total_waits + samples.total_waits
       total_duration := self.total_duration + samples.total_duration
       num_samples := self.num_samples + samples.num_samples }, none)

/-- The truncated average per-worker duration
`(total_duration / num_samples).num_nanoseconds()` of
`ParallelSample::tot_tps` (Duration divided by i32). -/
def avg_duration_nanos (p : ParallelSample) : Int :=
  Int.tdiv p.total_duration p.num_samples

/-- Source `ParallelSample::tot_tps`. -/
noncomputable def tot_tps (p : ParallelSample) : ℝ :=
  if p.num_samples < 1 then 0
  else if p.avg_duration_nanos = 0 then (p.total_transactions : ℝ)
  else 1e9 * (p.total_transactions : ℝ) / (p.avg_duration_nanos : ℝ)

end ParallelSample

/-- Source `struct TestResult` from src/threader/samples.rs. -/
structure TestResult where
  tps : ℝ
  latency : Duration

/-- Source `ParallelSample::as_testresult`. -/
noncomputable def ParallelSample.as_testresult (p : ParallelSample) : TestResult :=
  { tps := p.tot_tps, latency := p.avg_latency }

/-- Source `struct ParallelSamples` from src/threader/samples.rs: the
`BTreeMap<u32, ParallelSample>` is modelled as an association list with
unique keys (the iterator bookkeeping fields are irrelevant to the modelled
operations). -/
structure ParallelSamples where
  parallel_samples : List (Nat × ParallelSample)

namespace ParallelSamples

/-- The `entry(..).and_modify(..).or_insert(..)` walk of
`ParallelSamples::add` over the association list: modify the entry stored
under `s.timeslice` with `ParallelSample::add`, or insert `s` under
`s.timeslice` when no entry exists.  `none` models the `unwrap()` panic on
the error of the inner `add`. -/
def addEntry : List (Nat × ParallelSample) → ParallelSample →
    Option (List (Nat × ParallelSample))
  | [], s => some [(s.timeslice, s)]
  | (k, v) :: rest, s =>
    if k = s.timeslice then
      match ParallelSample.add v s with
      | (v', none) => some ((k, v') :: rest)
      | (_, some _) => none
    else
      Option.map (fun r => (k, v) :: r) (addEntry rest s)

/-- Source `ParallelSamples::add`; `none` models a panic of the inner
`unwrap()`. -/
def add (m : ParallelSamples) (s : ParallelSample) : Option ParallelSamples :=
  Option.map ParallelSamples.mk (addEntry m.parallel_samples s)

/-- The key/value invariant of the map of `ParallelSamples`: every entry is
stored under the timeslice of its value.  `or_insert` only ever inserts a
sample under its own `timeslice`, so the invariant holds for every map the
program builds. -/
def Wf (m : ParallelSamples) : Prop :=
  ∀ kv ∈ m.parallel_samples, (kv.2).timeslice = kv.1

instance (m : ParallelSamples) : Decidable m.Wf := by
  unfold Wf; infer_instance

end ParallelSamples

/-- Source `struct TestResults` from src/threader/samples.rs. -/
structure TestResults where
  min : Nat
  max : Nat
  results : List TestResult

namespace TestResults

/-- Source `TestResults::tot_tps`: sum of the tps values of the window. -/
noncomputable def tot_tps (w : TestResults) : ℝ :=
  (w.results.map TestResult.tps).sum

/-- Source `TestResults::avg_latency`: the accumulated latency divided (Duration
by i32, truncating) by the number of results, returned unchanged (i.e. as
the zero accumulator) when the window is empty. -/
def avg_latency (w : TestResults) : Duration :=
  let tot_lat : Duration := (w.results.map TestResult.latency).sum
  if w.results.length = 0 then tot_lat
  else Int.tdiv tot_lat w.results.length

/-- Source `TestResults::len`. -/
def len (w : TestResults) : Nat :=
  w.results.length

/-- Source `TestResults::mean`. -/
noncomputable def mean (w : TestResults) : Option TestResult :=
  if 0 < w.len then
    some { tps := w.tot_tps / (w.len : ℝ), latency := w.avg_latency }
  else none

/-- Source `TestResults::std_deviation_absolute`. -/
noncomputable def std_deviation_absolute (w : TestResults) : Option TestResult :=
  match w.mean with
  | some results =>
    if 0 < w.len then
      let tps_variance : ℝ :=
        ((w.results.map (fun tr =>
          (results.tps - tr.tps) * (results.tps - tr.tps))).sum) / (w.len : ℝ)
      let lat_variance : ℝ :=
        ((w.results.map (fun tr =>
          (((results.latency - tr.latency).num_microseconds : ℝ)) *
          (((results.latency - tr.latency).num_microseconds : ℝ)))).sum) / (w.len : ℝ)
      some { tps := Real.sqrt tps_variance
             latency := Duration.microseconds (f64_as_i64 (Real.sqrt lat_variance)) }
    else none
  | none => none

/-- Source `TestResults::append`: push at the end, drop the front when the window
has grown past `max`. -/
def append (w : TestResults) (result : TestResult) : TestResults :=
  let pushed := w.results ++ [result]
  { w with results := if pushed.length > w.max then pushed.drop 1 else pushed }

/-- Source `TestResults::verify`. -/
noncomputable def verify (w : TestResults) (spread : ℝ) : Option TestResult :=
  if w.results.length < w.min then none
  else
    match w.std_deviation_absolute, w.mean with
    | some stdev, some mean =>
      if ¬((0 ≤ percent_of mean.tps stdev.tps ∧
            percent_of mean.tps stdev.tps < spread) ∧
           (0 ≤ percent_of (mean.latency.num_microseconds : ℝ)
                  (stdev.latency.num_microseconds : ℝ) ∧
            percent_of (mean.latency.num_microseconds : ℝ)
                  (stdev.latency.num_microseconds : ℝ) < spread))
      then none
      else some stdev
    | _, _ => none

end TestResults

/-! ### Fibonacci iterator (src/fibonacci/mod.rs) -/

/-- Source `struct Fibonacci` from src/fibonacci/mod.rs. -/
structure Fibonacci where
  curr : Nat
  next : Nat
deriving DecidableEq, Repr

namespace Fibonacci

/-- One `Iterator::next` call: compute `new_next = curr + next` (u32
addition, wrap-around at `2^32`), shift the pair, and emit the updated
`curr` (the old `next`). -/
def step (s : Fibonacci) : Nat × Fibonacci :=
  let new_next := (s.curr + s.next) % 4294967296
  (s.next, { curr := s.next, next := new_next })

/-- The value of the `n`-th `Iterator::next` call (0-based) starting from
state `s`. -/
def emit (s : Fibonacci) : Nat → Nat
  | 0 => (s.step).1
  | n + 1 => (s.step).2.emit n

end Fibonacci

/-! ### Worker measurement loop (src/threader/worker.rs) -/

/-- Source `struct Sample` from src/threader/samples.rs, restricted to the fields
the measurement loop writes (the wall-clock bounds are environment
inputs). -/
structure Sample where
  transactions : Nat
  wait : Duration
deriving DecidableEq, Repr

/-- Source `Sample::increment`: one finished transaction with its wait. -/
def Sample.increment (s : Sample) (wait : Duration) : Sample :=
  { transactions := s.transactions + 1, wait := s.wait + wait }

/-- The `f64 as u64` cast of Rust: truncation towards zero, saturating at 0
for negative values (the `f64` is modelled as a rational). -/
def f64_as_u64 (x : ℚ) : Nat :=
  if x < 0 then 0 else (⌊x⌋).toNat

/-- The measurement part of `fn sample` from src/threader/worker.rs: clamp
`num_queries` to at least 1, then run the loop `for _x in 0..num_queries`,
each pass executing one unit of work and calling `Sample::increment` with
the observed wait (`waits x`, an environment input). -/
def worker_sample (num_queries : Nat) (waits : Nat → Duration) : Sample :=
  let n := if num_queries < 1 then 1 else num_queries
  (List.range n).foldl (fun s x => s.increment (waits x)) { transactions := 0, wait := 0 }

/-! ### CLI / environment boolean options (src/generic/mod.rs,
src/cli/mod.rs) -/

/-- The process environment, modelled as the association list of the set
variables; `env::var` is a lookup in it. -/
abbrev Env := List (String × String)

/-- Source `get_env_bool` from src/generic/mod.rs: keep a `true` flag; otherwise
the result is `true` exactly when `env::var(env_key)` is `Ok`, i.e. when
the variable is present, whatever its value. -/
def get_env_bool (val : Bool) (env : Env) (env_key : String) : Bool :=
  if val then val
  else if (List.lookup env_key env).isSome then true
  else false

/-- The two boolean options of `struct Params` from src/cli/mod.rs. -/
structure Params where
  prepared : Bool
  transactional : Bool
deriving DecidableEq, Repr

/-- The `prepared` / `transactional` lines of `Params::get_args`
(src/cli/mod.rs lines 87-89). -/
def Params.get_args_env (p : Params) (env : Env) : Params :=
  { prepared := get_env_bool p.prepared env "PGTPSPREPARED"
    transactional := get_env_bool p.transactional env "PGTPSTRANSACTIONAL" }

/-! ### Spec-side statements

The definitions below are written from the wording of the specification,
not from the source; the refinement theorems compare them with the
source-derived definitions above. -/

/-- From the spec: `tps = 0` if `sample_count == 0`; otherwise
`1e9 * sum_transactions / (sum_durations / sample_count)` in nanoseconds,
falling back to `sum_transactions` when the averaged duration is zero. -/
noncomputable def specTps (p : ParallelSample) : ℝ :=
  if p.num_samples = 0 then 0
  else if Int.tdiv p.total_duration p.num_samples = 0 then (p.total_transactions : ℝ)
  else 1e9 * (p.total_transactions : ℝ) / ((Int.tdiv p.total_duration p.num_samples : Int) : ℝ)

/-- From the spec: `latency = sum_waits / sum_transactions` if
`sum_transactions > 0`, else 0. -/
def specLatency (p : ParallelSample) : Duration :=
  if 0 < p.total_transactions then Int.tdiv p.total_waits p.total_transactions
  else 0

/-- From the spec: the arithmetic mean of the tps values of the window
(`0/0 = 0` by the division convention of `ℝ` on the empty window). -/
noncomputable def specMeanTps (w : TestResults) : ℝ :=
  (w.results.map TestResult.tps).sum / (w.results.length : ℝ)

/-- From the spec: the population standard deviation of the tps values of
the window. -/
noncomputable def specSdTps (w : TestResults) : ℝ :=
  Real.sqrt (((w.results.map (fun tr =>
    (specMeanTps w - tr.tps) * (specMeanTps w - tr.tps))).sum) / (w.results.length : ℝ))

/-- From the spec: the relative tps spread
`100 * stddev_tps / mean_tps`, 0 when the mean is 0. -/
noncomputable def specRelTps (w : TestResults) : ℝ :=
  percent_of (specMeanTps w) (specSdTps w)

/-- From the spec: the mean latency of the window as a duration
(nanoseconds, truncating division; `tdiv _ 0 = 0` on the empty window). -/
def specMeanLatNs (w : TestResults) : Int :=
  Int.tdiv ((w.results.map TestResult.latency).sum) w.results.length

/-- From the spec: the mean latency in microseconds. -/
def specMeanLatUs (w : TestResults) : Int :=
  Int.tdiv (specMeanLatNs w) 1000

/-- From the spec: the population standard deviation of the latencies,
computed in microseconds and truncated to a whole number of microseconds
(the `f64 as i64` cast the source applies before carrying it as a
duration). -/
noncomputable def specSdLatUs (w : TestResults) : Int :=
  f64_as_i64 (Real.sqrt (((w.results.map (fun tr =>
    ((Int.tdiv (specMeanLatNs w - tr.latency) 1000 : Int) : ℝ) *
    ((Int.tdiv (specMeanLatNs w - tr.latency) 1000 : Int) : ℝ))).sum) / (w.results.length : ℝ)))

/-- From the spec: the relative latency spread
`100 * stddev_latency_us / mean_latency_us`, 0 when the mean is 0. -/
noncomputable def specRelLat (w : TestResults) : ℝ :=
  percent_of ((specMeanLatUs w : Int) : ℝ) ((specSdLatUs w : Int) : ℝ)

/-! ## Helper lemmas -/

lemma fib_emit_rec_aux :
    ∀ (n : Nat) (s : Fibonacci),
      s.emit (n + 2) = (s.emit n + s.emit (n + 1)) % 4294967296 := by
  intro n
  induction n with
  | zero => intro s; rfl
  | succ n ih =>
    intro s
    show (s.step).2.emit (n + 2) = ((s.step).2.emit n + (s.step).2.emit (n + 1)) % 4294967296
    exact ih (s.step).2

lemma worker_loop_transactions (l : List Nat) (waits : Nat → Duration) (s : Sample) :
    (l.foldl (fun s x => s.increment (waits x)) s).transactions =
      s.transactions + l.length := by
  induction l generalizing s with
  | nil => simp
  | cons a l ih =>
    rw [List.foldl_cons, ih]
    simp only [Sample.increment, List.length_cons]
    omega

lemma add_fst_of_eq (a b : ParallelSample) (h : a.timeslice = b.timeslice) :
    (a.add b).1 =
      { timeslice := a.timeslice
        total_transactions := a.total_transactions + b.total_transactions
        total_waits := a.total_waits + b.total_waits
        total_duration := a.total_duration + b.total_duration
        num_samples := a.num_samples + b.num_samples } := by
  unfold ParallelSample.add
  rw [if_neg (by simp [h])]

lemma addEntry_total_and_wf :
    ∀ (l : List (Nat × ParallelSample)) (s : ParallelSample),
      (∀ kv ∈ l, (kv.2).timeslice = kv.1) →
      ∃ l', ParallelSamples.addEntry l s = some l' ∧
        ∀ kv ∈ l', (kv.2).timeslice = kv.1 := by
  intro l
  induction l with
  | nil =>
    intro s _
    exact ⟨[(s.timeslice, s)], rfl, by simp⟩
  | cons kv rest ih =>
    intro s h
    obtain ⟨k, v⟩ := kv
    by_cases hk : k = s.timeslice
    · have hv : v.timeslice = k := h (k, v) (List.mem_cons_self _ _)
      have hts : v.timeslice = s.timeslice := hv.trans hk
      have hadd : ParallelSample.add v s =
          ({ timeslice := v.timeslice
             total_transactions := v.total_transactions + s.total_transactions
             total_waits := v.total_waits + s.total_waits
             total_duration := v.total_duration + s.total_duration
             num_samples := v.num_samples + s.num_samples }, none) := by
        unfold ParallelSample.add
        rw [if_neg (by simp [hts])]
      refine ⟨(k, { timeslice := v.timeslice
                    total_transactions := v.total_transactions + s.total_transactions
                    total_waits := v.total_waits + s.total_waits
                    total_duration := v.total_duration + s.total_duration
                    num_samples := v.num_samples + s.num_samples }) :: rest, ?_, ?_⟩
      · simp only [ParallelSamples.addEntry, if_pos hk, hadd]
      · intro kv hkv
        rcases List.mem_cons.mp hkv with hkv | hkv
        · simp [hkv, hv]
        · exact h kv (List.mem_cons_of_mem _ hkv)
    · obtain ⟨l', hl', hwf⟩ := ih s (fun kv hkv => h kv (List.mem_cons_of_mem _ hkv))
      refine ⟨(k, v) :: l', ?_, ?_⟩
      · simp only [ParallelSamples.addEntry, if_neg hk, hl', Option.map_some']
      · intro kv hkv
        rcases List.mem_cons.mp hkv with hkv | hkv
        · exact hkv ▸ h (k, v) (List.mem_cons_self _ _)
        · exact hwf kv hkv

lemma avg_latency_pos (w : TestResults) (h : 0 < w.results.length) :
    w.avg_latency = specMeanLatNs w := by
  unfold TestResults.avg_latency specMeanLatNs
  rw [if_neg (by omega)]

lemma mean_eq_spec (w : TestResults) (h : 0 < w.results.length) :
    w.mean = some ⟨specMeanTps w, specMeanLatNs w⟩ := by
  unfold TestResults.mean TestResults.len
  rw [if_pos h, avg_latency_pos w h]
  rfl

lemma stdev_eq_spec (w : TestResults) (h : 0 < w.results.length) :
    w.std_deviation_absolute = some ⟨specSdTps w, Duration.microseconds (specSdLatUs w)⟩ := by
  unfold TestResults.std_deviation_absolute TestResults.len
  rw [mean_eq_spec w h]
  simp only
  rw [if_pos h]
  rfl

lemma num_micro_microseconds (x : Int) :
    (Duration.microseconds x).num_microseconds = x := by
  unfold Duration.microseconds Duration.num_microseconds
  exact Int.mul_tdiv_cancel_left x (by norm_num)

lemma specRelTps_def (w : TestResults) :
    percent_of (specMeanTps w) (specSdTps w) = specRelTps w := rfl

lemma specRelLat_def (w : TestResults) :
    percent_of ((specMeanLatUs w : Int) : ℝ) ((specSdLatUs w : Int) : ℝ) = specRelLat w := rfl

lemma specMeanLatUs_def (w : TestResults) :
    Duration.num_microseconds (specMeanLatNs w) = specMeanLatUs w := rfl

/-! ## Claim theorems -/

/-- C1 (code bug evaluated at the failing input): on the window
`{min := 1, max := 10, results := [{tps := 100, latency := 0}, {tps := 100,
latency := 0}]}` with `spread = 5`, `TestResults::verify` returns `Some` of
the standard-deviation TestResult `{tps := 0, latency := 0}` — not the
window mean `{tps := 100, latency := 0}` that the module documentation and
the specification promise. -/
theorem verify_returns_stddev_not_mean :
    (TestResults.mk 1 10 [⟨100, 0⟩, ⟨100, 0⟩]).verify 5 = some ⟨0, 0⟩ ∧
    (TestResults.mk 1 10 [⟨100, 0⟩, ⟨100, 0⟩]).mean = some ⟨100, 0⟩ ∧
    (0 : ℝ) ≠ 100 := by
  have hpos : 0 < (TestResults.mk 1 10 [⟨100, 0⟩, ⟨100, 0⟩]).results.length := by simp
  have hmt : specMeanTps (TestResults.mk 1 10 [⟨100, 0⟩, ⟨100, 0⟩]) = 100 := by
    unfold specMeanTps
    norm_num
  have hml : specMeanLatNs (TestResults.mk 1 10 [⟨100, 0⟩, ⟨100, 0⟩]) = 0 := by
    unfold specMeanLatNs
    norm_num
  have hst : specSdTps (TestResults.mk 1 10 [⟨100, 0⟩, ⟨100, 0⟩]) = 0 := by
    unfold specSdTps
    rw [hmt]
    norm_num
  have hsl : specSdLatUs (TestResults.mk 1 10 [⟨100, 0⟩, ⟨100, 0⟩]) = 0 := by
    unfold specSdLatUs
    rw [hml]
    norm_num [Duration.num_microseconds, f64_as_i64]
  have hmean := mean_eq_spec (TestResults.mk 1 10 [⟨100, 0⟩, ⟨100, 0⟩]) hpos
  rw [hmt, hml] at hmean
  have hstdev := stdev_eq_spec (TestResults.mk 1 10 [⟨100, 0⟩, ⟨100, 0⟩]) hpos
  rw [hst, hsl] at hstdev
  refine ⟨?_, hmean, by norm_num⟩
  unfold TestResults.verify
  rw [if_neg (by simp)]
  rw [hstdev, hmean]
  simp only [Duration.microseconds]
  rw [if_neg]
  · norm_num
  · simp only [not_not]
    constructor
    · have : percent_of (100 : ℝ) 0 = 0 := by
        unfold percent_of
        norm_num
      rw [this]
      norm_num
    · have h0 : Duration.num_microseconds 0 = 0 := by norm_num [Duration.num_microseconds]
      have h1000 : Duration.num_microseconds (1000 * 0) = 0 := by
        norm_num [Duration.num_microseconds]
      rw [h0, h1000]
      have : percent_of (0 : ℝ) 0 = 0 := by
        unfold percent_of
        norm_num
      simp only [Int.cast_zero, this]
      norm_num

/-- C2 (amended): `verify(spread)` returns `Some` if and only if the window
length is at least `min_len`, the window is non-empty (so that mean and
standard deviation exist), and both relative spreads
(`100 * stddev / mean`, 0 when the mean is 0) lie in `[0, spread)`. -/
theorem verify_isSome_iff (w : TestResults) (s : ℝ) :
    (w.verify s).isSome = true ↔
      (w.min ≤ w.results.length ∧ 0 < w.results.length ∧
       (0 ≤ specRelTps w ∧ specRelTps w < s) ∧
       (0 ≤ specRelLat w ∧ specRelLat w < s)) := by
  unfold TestResults.verify
  by_cases hmin : w.results.length < w.min
  · rw [if_pos hmin]
    simp only [Option.isSome_none, Bool.false_eq_true, false_iff]
    intro hc
    omega
  · rw [if_neg hmin]
    rcases Nat.eq_zero_or_pos w.results.length with h0 | hpos
    · have hm : w.mean = none := by
        unfold TestResults.mean TestResults.len
        rw [if_neg (by omega)]
      have hs : w.std_deviation_absolute = none := by
        unfold TestResults.std_deviation_absolute
        rw [hm]
      rw [hs, hm]
      simp only [Option.isSome_none, Bool.false_eq_true, false_iff]
      intro hc
      omega
    · rw [stdev_eq_spec w hpos, mean_eq_spec w hpos]
      simp only [specRelTps_def, num_micro_microseconds, specMeanLatUs_def, specRelLat_def]
      by_cases hc : (0 ≤ specRelTps w ∧ specRelTps w < s) ∧
          (0 ≤ specRelLat w ∧ specRelLat w < s)
      · rw [if_neg (not_not_intro hc)]
        simp only [Option.isSome_some, true_iff]
        exact ⟨Nat.not_lt.mp hmin, hpos, hc.1, hc.2⟩
      · rw [if_pos hc]
        simp only [Option.isSome_none, Bool.false_eq_true, false_iff]
        intro hrhs
        exact hc ⟨hrhs.2.2.1, hrhs.2.2.2⟩

/-- C2 counterexample: on the empty window with `min_len = 0` and
`spread = 1` the right-hand side of the claimed equivalence holds (the
length reaches `min_len` and both relative spreads are 0, i.e. inside
`[0, 1)`), yet `verify` returns `None`: the claim misses the requirement
that the window be non-empty. -/
theorem verify_none_on_empty_window :
    ((TestResults.mk 0 1 []).min ≤ (TestResults.mk 0 1 []).results.length ∧
     (0 ≤ specRelTps (TestResults.mk 0 1 []) ∧ specRelTps (TestResults.mk 0 1 []) < 1) ∧
     (0 ≤ specRelLat (TestResults.mk 0 1 []) ∧ specRelLat (TestResults.mk 0 1 []) < 1)) ∧
    (TestResults.mk 0 1 []).verify 1 = none := by
  have ht : specRelTps (TestResults.mk 0 1 []) = 0 := by
    unfold specRelTps specMeanTps percent_of
    norm_num
  have hl : specRelLat (TestResults.mk 0 1 []) = 0 := by
    unfold specRelLat specMeanLatUs specMeanLatNs percent_of
    norm_num
  refine ⟨⟨by simp, by rw [ht]; norm_num, by rw [hl]; norm_num⟩, ?_⟩
  unfold TestResults.verify TestResults.std_deviation_absolute TestResults.mean TestResults.len
  norm_num

/-- C3: for every ParallelSample, the derived TestResult has
`tps = 0` when the sample count is 0, otherwise
`1e9 * sum_transactions / (sum_durations / sample_count)` in nanoseconds
with the `sum_transactions` fallback when the averaged duration is zero;
and `latency = sum_waits / sum_transactions` when `sum_transactions > 0`,
else 0. -/
theorem as_testresult_matches_spec (p : ParallelSample) :
    (p.as_testresult).tps = specTps p ∧ (p.as_testresult).latency = specLatency p := by
  constructor
  · simp only [ParallelSample.as_testresult, ParallelSample.tot_tps,
      ParallelSample.avg_duration_nanos, specTps, Nat.lt_one_iff]
  · simp only [ParallelSample.as_testresult, ParallelSample.avg_latency, specLatency]
    rcases Nat.eq_zero_or_pos p.total_transactions with h | h
    · simp [h]
    · rw [if_neg (by omega), if_pos h]

/-- C4 (amended): the Fibonacci iterator started at `(1, 1)` emits
`1, 2, 3, 5, 8, …`: its first emitted value is 1, its second is 2, and
every later value is the sum (u32 wrap-around at `2^32`) of the two
preceding emitted values. -/
theorem fibonacci_emits_one_two_then_sums :
    Fibonacci.emit ⟨1, 1⟩ 0 = 1 ∧ Fibonacci.emit ⟨1, 1⟩ 1 = 2 ∧
    ∀ n, Fibonacci.emit ⟨1, 1⟩ (n + 2) =
      (Fibonacci.emit ⟨1, 1⟩ n + Fibonacci.emit ⟨1, 1⟩ (n + 1)) % 4294967296 :=
  ⟨rfl, rfl, fun n => fib_emit_rec_aux n ⟨1, 1⟩⟩

/-- C4 counterexample: the second value the iterator emits from `(1, 1)` is
2, not 1: the emitted sequence is `1, 2, 3, 5, 8, …` (the source's own test
pins the sum of the first five emitted values to 19 = 1+2+3+5+8). -/
theorem fibonacci_second_emitted_is_two_not_one :
    Fibonacci.emit ⟨1, 1⟩ 1 = 2 ∧ Fibonacci.emit ⟨1, 1⟩ 1 ≠ 1 := by
  decide

/-- C5: when the tps estimate is below 10 the computed per-iteration query
count `(tps / 10) as u64` clamps to 1, the loop of `fn sample`
(src/threader/worker.rs) runs at least one unit of work, and the returned
Sample records `transactions ≥ 1` (exactly 1 here). -/
theorem worker_sample_at_least_one_transaction (tps : ℚ) (waits : Nat → Duration)
    (h : tps < 10) :
    1 ≤ (worker_sample (f64_as_u64 (tps / 10)) waits).transactions ∧
    (worker_sample (f64_as_u64 (tps / 10)) waits).transactions = 1 := by
  have hq : f64_as_u64 (tps / 10) = 0 := by
    unfold f64_as_u64
    by_cases hneg : tps / 10 < 0
    · rw [if_pos hneg]
    · rw [if_neg hneg]
      have h1 : tps / 10 < 1 := (div_lt_one (by norm_num)).mpr h
      have h2 : ⌊tps / 10⌋ < (1 : Int) := by
        rw [Int.floor_lt]
        exact_mod_cast h1
      omega
  have htr : (worker_sample (f64_as_u64 (tps / 10)) waits).transactions = 1 := by
    rw [hq]
    unfold worker_sample
    rw [worker_loop_transactions]
    simp
  exact ⟨htr.ge, htr⟩

/-- C5 witness: a concrete estimate below 10. -/
theorem worker_sample_at_least_one_transaction_witness :
    (5 : ℚ) < 10 ∧
    (1 ≤ (worker_sample (f64_as_u64 ((5 : ℚ) / 10)) (fun _ => 0)).transactions ∧
     (worker_sample (f64_as_u64 ((5 : ℚ) / 10)) (fun _ => 0)).transactions = 1) :=
  ⟨by norm_num, worker_sample_at_least_one_transaction 5 (fun _ => 0) (by norm_num)⟩

/-- C6: `ParallelSample::add` fails exactly when the timeslices differ, in
which case `self` is left unchanged; on matching timeslices it succeeds and
every one of the four data fields becomes the sum of the corresponding
fields. -/
theorem parallel_sample_add_spec (a b : ParallelSample) :
    (((a.add b).2).isSome ↔ a.timeslice ≠ b.timeslice) ∧
    (a.add b).1 = (if a.timeslice = b.timeslice then
      { timeslice := a.timeslice
        total_transactions := a.total_transactions + b.total_transactions
        total_waits := a.total_waits + b.total_waits
        total_duration := a.total_duration + b.total_duration
        num_samples := a.num_samples + b.num_samples }
      else a) := by
  unfold ParallelSample.add
  by_cases h : a.timeslice = b.timeslice <;> simp [h]

/-- C7: on matching timeslices, merging ParallelSamples is commutative and
associative (any order or grouping yields identical sums and counts). -/
theorem parallel_sample_add_comm_assoc (a b c : ParallelSample)
    (hab : a.timeslice = b.timeslice) (hbc : b.timeslice = c.timeslice) :
    (a.add b).1 = (b.add a).1 ∧
    ((a.add b).1.add c).1 = (a.add (b.add c).1).1 := by
  have hac : a.timeslice = c.timeslice := hab.trans hbc
  rw [add_fst_of_eq a b hab, add_fst_of_eq b a hab.symm,
    add_fst_of_eq _ c (by simpa using hac), add_fst_of_eq b c hbc,
    add_fst_of_eq a _ (by simpa using hab)]
  constructor
  · simp only [ParallelSample.mk.injEq]
    exact ⟨hab, by omega, by ring, by ring, by omega⟩
  · simp only [ParallelSample.mk.injEq, and_true, true_and, eq_self_iff_true]
    exact ⟨by omega, by ring, by ring, by omega⟩

/-- C7 witness: three concrete samples on the same timeslice. -/
theorem parallel_sample_add_comm_assoc_witness :
    ((⟨7, 1, 2, 3, 4⟩ : ParallelSample).timeslice = (⟨7, 5, 6, 7, 8⟩ : ParallelSample).timeslice ∧
     (⟨7, 5, 6, 7, 8⟩ : ParallelSample).timeslice = (⟨7, 9, 10, 11, 12⟩ : ParallelSample).timeslice) ∧
    ((ParallelSample.add ⟨7, 1, 2, 3, 4⟩ ⟨7, 5, 6, 7, 8⟩).1 =
      (ParallelSample.add ⟨7, 5, 6, 7, 8⟩ ⟨7, 1, 2, 3, 4⟩).1 ∧
     ((ParallelSample.add ⟨7, 1, 2, 3, 4⟩ ⟨7, 5, 6, 7, 8⟩).1.add ⟨7, 9, 10, 11, 12⟩).1 =
      (ParallelSample.add ⟨7, 1, 2, 3, 4⟩ (ParallelSample.add ⟨7, 5, 6, 7, 8⟩ ⟨7, 9, 10, 11, 12⟩).1).1) :=
  ⟨⟨rfl, rfl⟩, parallel_sample_add_comm_assoc ⟨7, 1, 2, 3, 4⟩ ⟨7, 5, 6, 7, 8⟩ ⟨7, 9, 10, 11, 12⟩ rfl rfl⟩

/-- C8: on a window whose length is at most `max`, `TestResults::append`
keeps the length bounded by `max` and acts as a FIFO: the new result goes
to the back and, exactly when the window would overflow, the front (oldest)
element is dropped while the rest keep their order. -/
theorem testresults_append_fifo (w : TestResults) (r : TestResult)
    (h : w.results.length ≤ w.max) :
    (w.append r).results.length ≤ w.max ∧
    (w.append r).results = List.drop (w.results.length + 1 - w.max) (w.results ++ [r]) := by
  unfold TestResults.append
  by_cases hgt : w.results.length + 1 > w.max
  · have hmax : w.results.length = w.max := by omega
    have hone : w.results.length + 1 - w.max = 1 := by omega
    simp only [List.length_append, List.length_singleton, hone]
    rw [if_pos (by simpa using hgt)]
    refine ⟨?_, rfl⟩
    simp only [List.length_drop, List.length_append, List.length_singleton]
    omega
  · have hzero : w.results.length + 1 - w.max = 0 := by omega
    simp only [List.length_append, List.length_singleton, hzero]
    rw [if_neg (by simpa using hgt)]
    exact ⟨by simpa using Nat.not_lt.mp (by simpa using hgt), by simp⟩

/-- C8 witness: a full window of length 2 with `max = 2`. -/
theorem testresults_append_fifo_witness :
    (TestResults.mk 1 2 [⟨1, 10⟩, ⟨2, 20⟩]).results.length ≤ (TestResults.mk 1 2 [⟨1, 10⟩, ⟨2, 20⟩]).max ∧
    (((TestResults.mk 1 2 [⟨1, 10⟩, ⟨2, 20⟩]).append ⟨3, 30⟩).results.length ≤ (TestResults.mk 1 2 [⟨1, 10⟩, ⟨2, 20⟩]).max ∧
     ((TestResults.mk 1 2 [⟨1, 10⟩, ⟨2, 20⟩]).append ⟨3, 30⟩).results =
       List.drop ((TestResults.mk 1 2 [⟨1, 10⟩, ⟨2, 20⟩]).results.length + 1 - (TestResults.mk 1 2 [⟨1, 10⟩, ⟨2, 20⟩]).max)
         ((TestResults.mk 1 2 [⟨1, 10⟩, ⟨2, 20⟩]).results ++ [⟨3, 30⟩])) :=
  ⟨by simp, testresults_append_fifo (TestResults.mk 1 2 [⟨1, 10⟩, ⟨2, 20⟩]) ⟨3, 30⟩ (by simp)⟩

/-- C9: `ParallelSamples::add` never panics: under the map invariant (every
entry is keyed by the timeslice of its value, which `or_insert` maintains),
the `and_modify` branch always merges two samples of equal timeslice, so
the inner `ParallelSample::add` cannot return the mismatch error and the
`unwrap()` is unreachable; the invariant is preserved. -/
theorem parallel_samples_add_no_panic (m : ParallelSamples) (s : ParallelSample)
    (h : m.Wf) :
    (m.add s).isSome = true ∧ ∀ m', m.add s = some m' → m'.Wf := by
  obtain ⟨l', hl', hwf⟩ := addEntry_total_and_wf m.parallel_samples s h
  constructor
  · simp [ParallelSamples.add, hl']
  · intro m' hm'
    simp only [ParallelSamples.add, hl', Option.map_some', Option.some.injEq] at hm'
    subst hm'
    exact hwf

/-- C9 witness: a concrete map with one entry and a sample landing in the
same bucket. -/
theorem parallel_samples_add_no_panic_witness :
    (ParallelSamples.mk [(7, ⟨7, 1, 2, 3, 4⟩)]).Wf ∧
    (((ParallelSamples.mk [(7, ⟨7, 1, 2, 3, 4⟩)]).add ⟨7, 5, 6, 7, 8⟩).isSome = true ∧
     ∀ m', (ParallelSamples.mk [(7, ⟨7, 1, 2, 3, 4⟩)]).add ⟨7, 5, 6, 7, 8⟩ = some m' → m'.Wf) :=
  ⟨by decide, parallel_samples_add_no_panic (ParallelSamples.mk [(7, ⟨7, 1, 2, 3, 4⟩)]) ⟨7, 5, 6, 7, 8⟩ (by decide)⟩

/-- C10: with the command-line flag unset (false), `prepared` and
`transactional` come out true exactly when `PGTPSPREPARED` /
`PGTPSTRANSACTIONAL` is present in the environment, whatever its value — in
particular the strings "false" and "0" still enable the options. -/
theorem env_bool_presence_enables :
    (∀ env : Env,
      (Params.get_args_env ⟨false, false⟩ env).prepared = (List.lookup "PGTPSPREPARED" env).isSome ∧
      (Params.get_args_env ⟨false, false⟩ env).transactional = (List.lookup "PGTPSTRANSACTIONAL" env).isSome) ∧
    (Params.get_args_env ⟨false, false⟩ [("PGTPSPREPARED", "false"), ("PGTPSTRANSACTIONAL", "0")]).prepared = true ∧
    (Params.get_args_env ⟨false, false⟩ [("PGTPSPREPARED", "false"), ("PGTPSTRANSACTIONAL", "0")]).transactional = true := by
  refine ⟨fun env => ⟨?_, ?_⟩, by decide, by decide⟩
  · simp only [Params.get_args_env, get_env_bool, if_false, Bool.false_eq_true]
    by_cases h : (List.lookup "PGTPSPREPARED" env).isSome <;> simp [h]
  · simp only [Params.get_args_env, get_env_bool, if_false, Bool.false_eq_true]
    by_cases h : (List.lookup "PGTPSTRANSACTIONAL" env).isSome <;> simp [h]

end PgTps
